import Mathlib

/-! Shallow embedding of the game-state and move-validation engine of the
Klondike solitaire program in `src/main.py`, together with proofs of the
specification claims. Python lists are modelled as Lean lists kept in the
same order: Python's `append` adds at the end of the list and `pop()`
removes from the end, so the top of the stock, waste and each foundation
is the last element. The one representation change is the undo history,
which keeps its most recent snapshot at the head of the list (a stack
either way). -/

namespace Solitaire

/-- Suits H, D, C, S, as in the source's one-character suit codes. -/
inductive Suit : Type
  | H | D | C | S
deriving DecidableEq, Repr

/-- Ranks in the ascending order of `DECK_ORDER`. -/
inductive Rank : Type
  | A | R2 | R3 | R4 | R5 | R6 | R7 | R8 | R9 | R10 | J | Q | K
deriving DecidableEq, Repr

/-- A card is a rank-suit pair (the source encodes a card as the string
rank-then-suit; `get_rank` and `get_suit` are the two projections). -/
structure Card : Type where
  rank : Rank
  suit : Suit
deriving DecidableEq, Repr

/-- `rank_index r` is `DECK_ORDER.index r`. -/
def rank_index : Rank → Nat
  | .A => 0 | .R2 => 1 | .R3 => 2 | .R4 => 3 | .R5 => 4 | .R6 => 5 | .R7 => 6
  | .R8 => 7 | .R9 => 8 | .R10 => 9 | .J => 10 | .Q => 11 | .K => 12

/-- Membership of `get_suit c` in `red_suits = [H, D]`. -/
def in_red (c : Card) : Bool := decide (c.suit = Suit.H) || decide (c.suit = Suit.D)

/-- Membership of `get_suit c` in `black_suits = [C, S]`. -/
def in_black (c : Card) : Bool := decide (c.suit = Suit.C) || decide (c.suit = Suit.S)

/-- `is_opposite_color` from the source: one suit red and the other black. -/
def is_opposite_color (c1 c2 : Card) : Bool :=
  (in_red c1 && in_black c2) || (in_black c1 && in_red c2)

/-- The color of a card as the spec describes it: `true` for red
(Hearts/Diamonds), `false` for black (Clubs/Spades). -/
def card_color (c : Card) : Bool := in_red c

/-- `is_valid_tableau_move` from the source: onto an empty face-up pile only
a King may move; otherwise the moving card must be exactly one rank lower
than, and of opposite color to, the destination's top (last) card. -/
def is_valid_tableau_move (target_up : List Card) (top_card : Card) : Bool :=
  match target_up.getLast? with
  | none => decide (top_card.rank = Rank.K)
  | some target_top =>
      decide (rank_index top_card.rank + 1 = rank_index target_top.rank)
        && is_opposite_color top_card target_top

/-- `is_valid_foundation_move` from the source: the card must match the
foundation's assigned suit; an empty foundation accepts only an Ace, and a
non-empty one only the next rank above its top (last) card. -/
def is_valid_foundation_move (foundation_cards : List Card) (card : Card) (suit : Suit) : Bool :=
  if card.suit ≠ suit then false
  else
    match foundation_cards.getLast? with
    | none => decide (card.rank = Rank.A)
    | some top => decide (rank_index card.rank = rank_index top.rank + 1)

lemma is_opposite_color_iff (c1 c2 : Card) :
    is_opposite_color c1 c2 = true ↔ card_color c1 ≠ card_color c2 := by
  rcases c1 with ⟨r1, s1⟩
  rcases c2 with ⟨r2, s2⟩
  cases s1 <;> cases s2 <;>
    simp [is_opposite_color, in_red, in_black, card_color]

/-- Claim C6: the tableau move validator accepts a move onto an empty
face-up run exactly when the moving bottom card is a King, and onto a
non-empty run exactly when the moving card's rank index plus one equals the
destination top card's rank index and the two cards have opposite colors.
(The embedded predicate is a pure function, so it modifies no state.) -/
theorem tableau_move_validator_spec (target_up : List Card) (c : Card) :
    (target_up = [] → (is_valid_tableau_move target_up c = true ↔ c.rank = Rank.K))
    ∧ (∀ l t, target_up = l ++ [t] →
        (is_valid_tableau_move target_up c = true ↔
          (rank_index c.rank + 1 = rank_index t.rank ∧ card_color c ≠ card_color t))) := by
  constructor
  · rintro rfl
    simp [is_valid_tableau_move]
  · rintro l t rfl
    simp [is_valid_tableau_move, List.getLast?_concat, is_opposite_color_iff]

/-- Witness for claim C6, at an empty destination with a King and at a
one-card destination with a matching move. -/
theorem tableau_move_validator_spec_witness :
    (is_valid_tableau_move [] ⟨Rank.K, Suit.H⟩ = true ↔ (⟨Rank.K, Suit.H⟩ : Card).rank = Rank.K)
    ∧ (is_valid_tableau_move [⟨Rank.R3, Suit.S⟩] ⟨Rank.R2, Suit.H⟩ = true ↔
        (rank_index Rank.R2 + 1 = rank_index Rank.R3 ∧
          card_color ⟨Rank.R2, Suit.H⟩ ≠ card_color ⟨Rank.R3, Suit.S⟩)) :=
  ⟨(tableau_move_validator_spec [] ⟨Rank.K, Suit.H⟩).1 rfl,
   (tableau_move_validator_spec [⟨Rank.R3, Suit.S⟩] ⟨Rank.R2, Suit.H⟩).2
     [] ⟨Rank.R3, Suit.S⟩ rfl⟩

/-- Claim C7: the foundation move validator rejects any card whose suit
differs from the foundation's assigned suit; with matching suit, an empty
foundation accepts exactly an Ace, and a non-empty one exactly a card whose
rank index equals the top card's rank index plus one. -/
theorem foundation_move_validator_spec (fnd : List Card) (c : Card) (suit : Suit) :
    (c.suit ≠ suit → is_valid_foundation_move fnd c suit = false)
    ∧ (fnd = [] →
        (is_valid_foundation_move fnd c suit = true ↔ (c.suit = suit ∧ c.rank = Rank.A)))
    ∧ (∀ l t, fnd = l ++ [t] →
        (is_valid_foundation_move fnd c suit = true ↔
          (c.suit = suit ∧ rank_index c.rank = rank_index t.rank + 1))) := by
  refine ⟨fun h => ?_, fun h => ?_, fun l t h => ?_⟩
  · simp [is_valid_foundation_move, h]
  · subst h
    by_cases hs : c.suit = suit <;> simp [is_valid_foundation_move, hs]
  · subst h
    by_cases hs : c.suit = suit <;>
      simp [is_valid_foundation_move, hs, List.getLast?_concat]

/-- Witness for claim C7: a wrong-suit rejection, an Ace on an empty
foundation, and a Two on top of an Ace. -/
theorem foundation_move_validator_spec_witness :
    (is_valid_foundation_move [] ⟨Rank.A, Suit.H⟩ Suit.C = false)
    ∧ (is_valid_foundation_move [] ⟨Rank.A, Suit.H⟩ Suit.H = true ↔
        ((⟨Rank.A, Suit.H⟩ : Card).suit = Suit.H ∧ (⟨Rank.A, Suit.H⟩ : Card).rank = Rank.A))
    ∧ (is_valid_foundation_move [⟨Rank.A, Suit.H⟩] ⟨Rank.R2, Suit.H⟩ Suit.H = true ↔
        ((⟨Rank.R2, Suit.H⟩ : Card).suit = Suit.H ∧
          rank_index Rank.R2 = rank_index Rank.A + 1)) :=
  ⟨(foundation_move_validator_spec [] ⟨Rank.A, Suit.H⟩ Suit.C).1 (by decide),
   (foundation_move_validator_spec [] ⟨Rank.A, Suit.H⟩ Suit.H).2.1 rfl,
   (foundation_move_validator_spec [⟨Rank.A, Suit.H⟩] ⟨Rank.R2, Suit.H⟩ Suit.H).2.2
     [] ⟨Rank.A, Suit.H⟩ rfl⟩

/-- One tableau pile: its face-down cards and its face-up cards, each
bottom-to-top (Python dict with keys "down" and "up"). -/
structure TPile : Type where
  down : List Card
  up : List Card
deriving DecidableEq, Repr

/-- Where the active drag run was lifted from: the waste, or tableau pile
`i` (the source stores the string tag and the origin index separately). -/
inductive DragSource : Type
  | waste
  | tableau (i : Fin 7)
deriving DecidableEq, Repr

/-- The transient drag state: the origin and the lifted run of cards
(bottom card first, as in the source's `subpile`); the pointer offsets
`dx`, `dy` are cosmetic and omitted. -/
structure DragState : Type where
  source : DragSource
  subpile : List Card
deriving DecidableEq, Repr

/-- The dictionary produced by `save_state`: deep copies of the seven
persistent fields (drag state and history are not part of a snapshot). -/
structure Snapshot : Type where
  tableau : Fin 7 → TPile
  stock : List Card
  waste : List Card
  spent : List Card
  foundations : Fin 4 → List Card
  move_count : Nat
  game_over : Bool

/-- The mutable state of a `Solitaire` object (rendering geometry, fonts
and the timer are omitted; `foundation_suits` is a constant). The undo
history keeps its most recent snapshot at the head. -/
structure GameState : Type where
  tableau : Fin 7 → TPile
  stock : List Card
  waste : List Card
  spent : List Card
  foundations : Fin 4 → List Card
  move_count : Nat
  game_over : Bool
  dragging : Option DragState
  history : List Snapshot

/-- The fixed suit of each foundation, in the source's order H, D, C, S. -/
def foundation_suits : Fin 4 → Suit := ![Suit.H, Suit.D, Suit.C, Suit.S]

/-- `create_full_deck` before shuffling: all 52 cards, suits outermost in
the order H, D, C, S, ranks A..K within each suit. The shuffle itself is
modelled by letting the engine start from an arbitrary permutation of this
list. -/
def create_full_deck : List Card :=
  [Suit.H, Suit.D, Suit.C, Suit.S].flatMap fun s =>
    [Rank.A, Rank.R2, Rank.R3, Rank.R4, Rank.R5, Rank.R6, Rank.R7, Rank.R8,
     Rank.R9, Rank.R10, Rank.J, Rank.Q, Rank.K].map fun r => ⟨r, s⟩

/-- The number of cards dealt before pile `i` in `setup_tableau`'s nested
loop (the loop counter `used` equals this triangular number when pile `i`
starts receiving cards). -/
def dealt_before (i : Nat) : Nat := i * (i + 1) / 2

/-- `setup_tableau`: pile `i` receives the `i + 1` consecutive deck cards
starting at position `dealt_before i`; the first `i` go face-down and the
last one face-up. -/
def setup_tableau (deck : List Card) : Fin 7 → TPile := fun i =>
  { down := (deck.drop (dealt_before i.1)).take i.1
    up := (deck.drop (dealt_before i.1 + i.1)).take 1 }

/-- `Solitaire.__init__` for a given shuffled deck: deal 28 cards to the
tableau, keep the remaining 24 as the stock, everything else empty. -/
def init_state (deck : List Card) : GameState :=
  { tableau := setup_tableau deck
    stock := deck.drop 28
    waste := []
    spent := []
    foundations := fun _ => []
    move_count := 0
    game_over := false
    dragging := none
    history := [] }

/-- `save_state`: the snapshot of the seven persistent fields (deep copy is
value copy here). -/
def save_state (g : GameState) : Snapshot :=
  { tableau := g.tableau
    stock := g.stock
    waste := g.waste
    spent := g.spent
    foundations := g.foundations
    move_count := g.move_count
    game_over := g.game_over }

/-- `load_state`: replace the seven persistent fields with the snapshot's
values; drag state and history are untouched. -/
def load_state (g : GameState) (s : Snapshot) : GameState :=
  { g with
    tableau := s.tableau
    stock := s.stock
    waste := s.waste
    spent := s.spent
    foundations := s.foundations
    move_count := s.move_count
    game_over := s.game_over }

/-- `check_for_win`: if all 52 cards are in the foundations, set
`game_over`. -/
def check_for_win (g : GameState) : GameState :=
  if (∑ i : Fin 4, (g.foundations i).length) = 52 then { g with game_over := true } else g

/-- `click_stock`: with an empty stock, recycle waste and spent (if either
is non-empty) into a rebuilt stock; otherwise pop the stock's top card,
push the waste's oldest card to spent when the waste already holds 3
cards, and append the drawn card to the waste. -/
def click_stock (g : GameState) : GameState :=
  match g.stock.getLast? with
  | none =>
      if g.waste = [] ∧ g.spent = [] then g
      else { g with stock := (g.spent ++ g.waste).reverse, waste := [], spent := [] }
  | some card =>
      if g.waste.length = 3 then
        { g with stock := g.stock.dropLast
                 waste := g.waste.tail ++ [card]
                 spent := g.spent ++ g.waste.take 1 }
      else
        { g with stock := g.stock.dropLast
                 waste := g.waste ++ [card] }

/-- `handle_mouse_down` when the click hits the stock rectangle: push a
snapshot, run `click_stock`, count the move, and check for a win. -/
def mouse_down_stock (g : GameState) : GameState :=
  check_for_win { click_stock { g with history := save_state g :: g.history } with
    move_count := (click_stock { g with history := save_state g :: g.history }).move_count + 1 }

/-- `handle_mouse_down` when the click hits the waste's top card: push a
snapshot, pop that card and hold it as a one-card drag run. -/
def mouse_down_waste (g : GameState) : GameState :=
  match g.waste.getLast? with
  | none => g
  | some card =>
      { g with history := save_state g :: g.history
               waste := g.waste.dropLast
               dragging := some ⟨DragSource.waste, [card]⟩ }

/-- `handle_mouse_down` when the click hits face-up card `cindex` of
tableau pile `i`: push a snapshot and lift that card and everything above
it as the drag run. A `cindex` out of range hits no card rectangle, so
nothing happens. -/
def mouse_down_tableau (g : GameState) (i : Fin 7) (cindex : Nat) : GameState :=
  if cindex < ((g.tableau i).up).length then
    { g with history := save_state g :: g.history
             tableau := Function.update g.tableau i
               { g.tableau i with up := ((g.tableau i).up).take cindex }
             dragging := some ⟨DragSource.tableau i, ((g.tableau i).up).drop cindex⟩ }
  else g

/-- `handle_undo`: pop the most recent snapshot (no-op when the history is
empty), load it, then floor-decrement the restored move count. -/
def handle_undo (g : GameState) : GameState :=
  match g.history with
  | [] => g
  | prev :: rest =>
      { load_state { g with history := rest } prev with
        move_count := max 0 ((load_state { g with history := rest } prev).move_count - 1) }

/-- The first half of `on_drop_success`: if the run came from a tableau
pile whose face-up sequence is now empty while face-down cards remain,
flip the pile's top face-down card into its face-up sequence. -/
def flip_tableau (g : GameState) (source : DragSource) : GameState :=
  match source with
  | .waste => g
  | .tableau o =>
      match ((g.tableau o).up).isEmpty, ((g.tableau o).down).getLast? with
      | true, some c =>
          { g with tableau := (Function.update g.tableau o
              { down := ((g.tableau o).down).dropLast, up := [c] }) }
      | _, _ => g

/-- `on_drop_success`: flip the origin pile's next face-down card if
needed, then count the move and check for a win. -/
def on_drop_success (g : GameState) (source : DragSource) : GameState :=
  check_for_win { flip_tableau g source with
    move_count := (flip_tableau g source).move_count + 1 }

/-- `on_drop_fail`: append the whole run back onto its origin (the waste,
or the origin tableau pile's face-up sequence). -/
def on_drop_fail (g : GameState) (d : DragState) : GameState :=
  match d.source with
  | .waste => { g with waste := g.waste ++ d.subpile }
  | .tableau o =>
      { g with tableau := (Function.update g.tableau o
          { g.tableau o with up := ((g.tableau o).up ++ d.subpile) }) }

/-- Where a pointer-up position lands. The foundation rectangles, the
seven tableau drop rectangles and the buttons occupy pairwise disjoint
screen regions (fixed layout constants), so a release position resolves to
at most one of these targets. -/
inductive DropTarget : Type
  | foundation (i : Fin 4)
  | tableauPile (i : Fin 7)
  | offBoard
deriving DecidableEq, Repr

/-- `handle_mouse_up`: nothing happens without an active drag. A one-card
run released on a foundation rectangle is validated there (an invalid try
falls through, collides with no tableau rectangle, and is returned). A run
released on a tableau pile's drop rectangle is validated against that
pile's face-up run. Any other release returns the run to its origin. The
drag state is cleared in every branch. -/
def handle_mouse_up (g : GameState) (tgt : DropTarget) : GameState :=
  match g.dragging with
  | none => g
  | some d =>
      match d.subpile with
      | [] => { g with dragging := none }
      | top_card :: _ =>
          match tgt with
          | .foundation i =>
              if d.subpile.length = 1
                  ∧ is_valid_foundation_move (g.foundations i) top_card (foundation_suits i) = true then
                on_drop_success
                  { g with
                    foundations := (Function.update g.foundations i (g.foundations i ++ [top_card])),
                    dragging := none } d.source
              else
                { (on_drop_fail g d) with dragging := none }
          | .tableauPile i =>
              if is_valid_tableau_move ((g.tableau i).up) top_card = true then
                { (on_drop_success
                    { g with tableau := (Function.update g.tableau i
                        { g.tableau i with up := ((g.tableau i).up ++ d.subpile) }) } d.source)
                  with dragging := none }
              else
                { (on_drop_fail g d) with dragging := none }
          | .offBoard => { (on_drop_fail g d) with dragging := none }

/-- The engine actions the claims quantify over (reshuffle / new game,
which replaces the whole state, is excluded). -/
inductive Action : Type
  | clickStock
  | liftWaste
  | liftTableau (i : Fin 7) (cindex : Nat)
  | drop (tgt : DropTarget)
  | undo
deriving DecidableEq, Repr

/-- One engine action. The pointer-down driven actions (stock click, the
two lifts, and the undo button) are dispatched through `handle_mouse_down`,
which returns immediately when the game is over; they are exposed here only
when no drag is active, because in the event protocol a pointer-down is
always preceded by the pointer-up that cleared the previous drag. -/
def step (g : GameState) : Action → GameState
  | .clickStock =>
      if g.game_over ∨ g.dragging.isSome then g else mouse_down_stock g
  | .liftWaste =>
      if g.game_over ∨ g.dragging.isSome then g else mouse_down_waste g
  | .liftTableau i cindex =>
      if g.game_over ∨ g.dragging.isSome then g else mouse_down_tableau g i cindex
  | .drop tgt => handle_mouse_up g tgt
  | .undo =>
      if g.game_over ∨ g.dragging.isSome then g else handle_undo g

/-- Running a whole sequence of engine actions. -/
def steps (g : GameState) (l : List Action) : GameState := l.foldl step g

/-- All cards of a tableau pile, as a multiset. -/
def pileCards (p : TPile) : Multiset Card := (p.down : Multiset Card) + (p.up : Multiset Card)

/-- All cards recorded in a snapshot, as a multiset. -/
def snapCards (s : Snapshot) : Multiset Card :=
  (s.stock : Multiset Card) + (s.waste : Multiset Card) + (s.spent : Multiset Card)
    + ∑ i : Fin 7, pileCards (s.tableau i)
    + ∑ i : Fin 4, ((s.foundations i : List Card) : Multiset Card)

/-- The cards of the active drag run, if any. -/
def dragCards (g : GameState) : Multiset Card :=
  match g.dragging with
  | none => 0
  | some d => (d.subpile : Multiset Card)

/-- Every card anywhere in a game state: stock, waste, spent, the seven
tableau piles (face-down and face-up), the four foundations, and the
active drag run. -/
def allCards (g : GameState) : Multiset Card := snapCards (save_state g) + dragCards g

lemma sum_fin_eq_add_erase {n : Nat} {α : Type} {β : Type} [AddCommMonoid β]
    (t : Fin n → α) (i : Fin n) (F : α → β) :
    (∑ j : Fin n, F (t j)) = F (t i) + ∑ j ∈ Finset.univ.erase i, F (t j) :=
  (Finset.add_sum_erase Finset.univ (fun j => F (t j)) (Finset.mem_univ i)).symm

lemma sum_fin_update {n : Nat} {α : Type} {β : Type} [AddCommMonoid β]
    (t : Fin n → α) (i : Fin n) (p : α) (F : α → β) :
    (∑ j : Fin n, F (Function.update t i p j)) = F p + ∑ j ∈ Finset.univ.erase i, F (t j) := by
  have h : ∀ j, F (Function.update t i p j) = Function.update (fun k => F (t k)) i (F p) j :=
    fun j => Function.apply_update (fun _ a => F a) t i p j
  simp only [h]
  rw [Finset.sum_update_of_mem (Finset.mem_univ i), Finset.sdiff_singleton_eq_erase]

lemma coe_getLast_dropLast {l : List Card} {c : Card} (h : l.getLast? = some c) :
    (l.dropLast : Multiset Card) + ↑([c] : List Card) = ↑l :=
  calc (l.dropLast : Multiset Card) + ↑([c] : List Card)
      = ((l.dropLast ++ [c] : List Card) : Multiset Card) := (Multiset.coe_add _ _).symm
    _ = ↑l := by rw [List.dropLast_append_getLast? c h]

lemma coe_take_drop (l : List Card) (n : Nat) :
    ((l.take n : List Card) : Multiset Card) + ↑(l.drop n) = ↑l :=
  calc ((l.take n : List Card) : Multiset Card) + ↑(l.drop n)
      = ((l.take n ++ l.drop n : List Card) : Multiset Card) := (Multiset.coe_add _ _).symm
    _ = ↑l := by rw [List.take_append_drop]

lemma check_for_win_dragging (g : GameState) : (check_for_win g).dragging = g.dragging := by
  rw [check_for_win]
  split <;> rfl

lemma check_for_win_foundations (g : GameState) :
    (check_for_win g).foundations = g.foundations := by
  rw [check_for_win]
  split <;> rfl

lemma allCards_check_for_win (g : GameState) : allCards (check_for_win g) = allCards g := by
  rw [check_for_win]
  split <;> rfl

lemma allCards_set_move_count (g : GameState) (n : Nat) :
    allCards { g with move_count := n } = allCards g := rfl

lemma dragCards_set_tableau (g : GameState) (t : Fin 7 → TPile) :
    dragCards { g with tableau := t } = dragCards g := rfl

lemma dragCards_eq_subpile {g : GameState} {d : DragState} (h : g.dragging = some d) :
    dragCards g = ↑d.subpile := by
  simp [dragCards, h]

lemma allCards_clear_drag {g : GameState} {d : DragState} (h : g.dragging = some d) :
    allCards { g with dragging := none } + ↑d.subpile = allCards g := by
  show snapCards (save_state g) + 0 + ↑d.subpile = allCards g
  rw [allCards, dragCards_eq_subpile h, add_zero]

lemma snapCards_update_tableau (g : GameState) (o : Fin 7) (p : TPile) :
    snapCards (save_state { g with tableau := Function.update g.tableau o p })
      + pileCards (g.tableau o)
    = snapCards (save_state g) + pileCards p := by
  simp only [snapCards, save_state]
  rw [sum_fin_update g.tableau o p pileCards, sum_fin_eq_add_erase g.tableau o pileCards]
  abel

lemma snapCards_update_foundations (g : GameState) (i : Fin 4) (l : List Card) :
    snapCards (save_state { g with foundations := Function.update g.foundations i l })
      + ↑(g.foundations i)
    = snapCards (save_state g) + ↑l := by
  simp only [snapCards, save_state]
  rw [sum_fin_update g.foundations i l (fun m => (m : Multiset Card)),
    sum_fin_eq_add_erase g.foundations i (fun m => (m : Multiset Card))]
  abel

lemma flip_tableau_dragging (g : GameState) (src : DragSource) :
    (flip_tableau g src).dragging = g.dragging := by
  unfold flip_tableau
  split
  · rfl
  · split <;> rfl

lemma allCards_flip_tableau (g : GameState) (src : DragSource) :
    allCards (flip_tableau g src) = allCards g := by
  unfold flip_tableau
  split
  · rfl
  · next o =>
      split
      · next c hup hdn =>
          have hupnil : (g.tableau o).up = [] := by
            simpa [List.isEmpty_iff] using hup
          have hp : pileCards { down := ((g.tableau o).down).dropLast, up := [c] }
              = pileCards (g.tableau o) := by
            simp only [pileCards, hupnil, Multiset.coe_nil, add_zero]
            exact coe_getLast_dropLast hdn
          have h1 := snapCards_update_tableau g o
            { down := ((g.tableau o).down).dropLast, up := [c] }
          rw [hp] at h1
          rw [allCards, allCards, dragCards_set_tableau]
          exact congrArg (fun m => m + dragCards g) (add_right_cancel h1)
      · rfl

lemma on_drop_success_dragging (g : GameState) (src : DragSource) :
    (on_drop_success g src).dragging = g.dragging := by
  unfold on_drop_success
  rw [check_for_win_dragging]
  exact flip_tableau_dragging g src

lemma allCards_on_drop_success (g : GameState) (src : DragSource) :
    allCards (on_drop_success g src) = allCards g := by
  unfold on_drop_success
  rw [allCards_check_for_win, allCards_set_move_count]
  exact allCards_flip_tableau g src

lemma on_drop_fail_dragging (g : GameState) (d : DragState) :
    (on_drop_fail g d).dragging = g.dragging := by
  rw [on_drop_fail]
  split <;> rfl

lemma allCards_on_drop_fail (g : GameState) (d : DragState) :
    allCards (on_drop_fail g d) = allCards g + ↑d.subpile := by
  have hsnap : snapCards (save_state (on_drop_fail g d))
      = snapCards (save_state g) + ↑d.subpile := by
    cases hsrc : d.source with
    | waste =>
        simp only [on_drop_fail, hsrc, snapCards, save_state, ← Multiset.coe_add]
        abel
    | tableau o =>
        simp only [on_drop_fail, hsrc]
        have hp : pileCards { g.tableau o with up := ((g.tableau o).up ++ d.subpile) }
            = pileCards (g.tableau o) + ↑d.subpile := by
          simp only [pileCards, ← Multiset.coe_add]
          abel
        have h1 := snapCards_update_tableau g o
          { g.tableau o with up := ((g.tableau o).up ++ d.subpile) }
        rw [hp] at h1
        have key : snapCards (save_state { g with tableau := (Function.update g.tableau o
              { g.tableau o with up := ((g.tableau o).up ++ d.subpile) }) })
              + pileCards (g.tableau o)
            = (snapCards (save_state g) + ↑d.subpile) + pileCards (g.tableau o) := by
          rw [h1]
          abel
        exact add_right_cancel key
  have hdrag : dragCards (on_drop_fail g d) = dragCards g := by
    rw [dragCards, dragCards, on_drop_fail_dragging]
  rw [allCards, allCards, hsnap, hdrag]
  abel

lemma allCards_fail_clear {g : GameState} {d : DragState} (hd : g.dragging = some d) :
    allCards { (on_drop_fail g d) with dragging := none } = allCards g := by
  have hd2 : (on_drop_fail g d).dragging = some d := by rw [on_drop_fail_dragging, hd]
  have h1 := allCards_clear_drag hd2
  rw [allCards_on_drop_fail] at h1
  exact add_right_cancel h1

/-- The drop position rejects the active run: it matches no destination,
or it matches a foundation that fails the single-card-and-valid check, or
a tableau pile whose validation fails (`bottom` is the run's bottom card,
`n` its length). -/
def drop_rejected (g : GameState) (bottom : Card) (n : Nat) : DropTarget → Prop
  | .foundation i =>
      ¬(n = 1 ∧ is_valid_foundation_move (g.foundations i) bottom (foundation_suits i) = true)
  | .tableauPile i => is_valid_tableau_move ((g.tableau i).up) bottom = false
  | .offBoard => True

lemma allCards_success_clear {X : GameState} {d : DragState} (hX : X.dragging = some d)
    (src : DragSource) :
    allCards { (on_drop_success X src) with dragging := none } + ↑d.subpile = allCards X := by
  have hdX : (on_drop_success X src).dragging = some d := by
    rw [on_drop_success_dragging]
    exact hX
  have h1 := allCards_clear_drag hdX
  rw [allCards_on_drop_success] at h1
  exact h1

lemma handle_mouse_up_none (g : GameState) (hd : g.dragging = none) (tgt : DropTarget) :
    handle_mouse_up g tgt = g := by
  simp [handle_mouse_up, hd]

lemma handle_mouse_up_nil_subpile (g : GameState) (d : DragState) (hd : g.dragging = some d)
    (hsub : d.subpile = []) (tgt : DropTarget) :
    handle_mouse_up g tgt = { g with dragging := none } := by
  simp only [handle_mouse_up, hd, hsub]

lemma handle_mouse_up_fail (g : GameState) (d : DragState) (hd : g.dragging = some d)
    (bottom : Card) (rest : List Card) (hsub : d.subpile = bottom :: rest) (tgt : DropTarget)
    (hrej : drop_rejected g bottom d.subpile.length tgt) :
    handle_mouse_up g tgt = { (on_drop_fail g d) with dragging := none } := by
  cases tgt with
  | offBoard => simp only [handle_mouse_up, hd, hsub]
  | foundation i =>
      have hne : ¬((bottom :: rest).length = 1
          ∧ is_valid_foundation_move (g.foundations i) bottom (foundation_suits i) = true) := by
        intro hcon
        refine hrej ⟨?_, hcon.2⟩
        rw [hsub]
        exact hcon.1
      simp only [handle_mouse_up, hd, hsub]
      rw [if_neg hne]
  | tableauPile i =>
      have hne : ¬(is_valid_tableau_move ((g.tableau i).up) bottom = true) := by
        have hrej2 : is_valid_tableau_move ((g.tableau i).up) bottom = false := hrej
        simp [hrej2]
      simp only [handle_mouse_up, hd, hsub]
      rw [if_neg hne]

lemma handle_mouse_up_foundation_success (g : GameState) (d : DragState)
    (hd : g.dragging = some d) (bottom : Card) (hsub : d.subpile = [bottom]) (i : Fin 4)
    (hvalid : is_valid_foundation_move (g.foundations i) bottom (foundation_suits i) = true) :
    handle_mouse_up g (DropTarget.foundation i) =
      on_drop_success { g with
        foundations := (Function.update g.foundations i (g.foundations i ++ [bottom])),
        dragging := none } d.source := by
  simp only [handle_mouse_up, hd, hsub]
  rw [if_pos ⟨rfl, hvalid⟩]

lemma handle_mouse_up_tableau_success (g : GameState) (d : DragState)
    (hd : g.dragging = some d) (bottom : Card) (rest : List Card)
    (hsub : d.subpile = bottom :: rest) (i : Fin 7)
    (hvalid : is_valid_tableau_move ((g.tableau i).up) bottom = true) :
    handle_mouse_up g (DropTarget.tableauPile i) =
      { (on_drop_success { g with
          tableau := (Function.update g.tableau i
            { g.tableau i with up := ((g.tableau i).up ++ (bottom :: rest)) }),
          dragging := some d } d.source)
        with dragging := none } := by
  simp only [handle_mouse_up, hd, hsub]
  rw [if_pos hvalid]

lemma allCards_handle_mouse_up (g : GameState) (tgt : DropTarget) :
    allCards (handle_mouse_up g tgt) = allCards g := by
  cases hd : g.dragging with
  | none => rw [handle_mouse_up_none g hd]
  | some d =>
      cases hsub : d.subpile with
      | nil =>
          rw [handle_mouse_up_nil_subpile g d hd hsub]
          have h1 := allCards_clear_drag hd
          rw [hsub] at h1
          simpa using h1
      | cons top rest =>
          cases tgt with
          | offBoard =>
              rw [handle_mouse_up_fail g d hd top rest hsub DropTarget.offBoard trivial]
              exact allCards_fail_clear hd
          | foundation i =>
              by_cases hcond : d.subpile.length = 1
                  ∧ is_valid_foundation_move (g.foundations i) top (foundation_suits i) = true
              · have hrest : rest = [] := by
                  have h0 := hcond.1
                  rw [hsub] at h0
                  simpa using h0
                subst hrest
                rw [handle_mouse_up_foundation_success g d hd top hsub i hcond.2,
                  allCards_on_drop_success]
                have e : allCards { g with
                    foundations := (Function.update g.foundations i (g.foundations i ++ [top])),
                    dragging := none }
                    = snapCards (save_state { g with
                        foundations :=
                          (Function.update g.foundations i (g.foundations i ++ [top])) })
                      + 0 := rfl
                rw [e, add_zero]
                have h2 : allCards g = snapCards (save_state g) + ↑([top] : List Card) := by
                  rw [allCards, dragCards_eq_subpile hd, hsub]
                rw [h2]
                have h1 := snapCards_update_foundations g i (g.foundations i ++ [top])
                have key : snapCards (save_state { g with
                      foundations := (Function.update g.foundations i (g.foundations i ++ [top])) })
                      + ↑(g.foundations i)
                    = (snapCards (save_state g) + ↑([top] : List Card)) + ↑(g.foundations i) := by
                  rw [h1, ← Multiset.coe_add]
                  abel
                exact add_right_cancel key
              · rw [handle_mouse_up_fail g d hd top rest hsub (DropTarget.foundation i) hcond]
                exact allCards_fail_clear hd
          | tableauPile i =>
              by_cases hvalid : is_valid_tableau_move ((g.tableau i).up) top = true
              · rw [handle_mouse_up_tableau_success g d hd top rest hsub i hvalid]
                have hY : ({ g with
                    tableau := (Function.update g.tableau i
                      { g.tableau i with up := ((g.tableau i).up ++ (top :: rest)) }),
                    dragging := some d } : GameState).dragging = some d := rfl
                have h1 := allCards_success_clear hY d.source
                have h2 : allCards { g with
                    tableau := (Function.update g.tableau i
                      { g.tableau i with up := ((g.tableau i).up ++ (top :: rest)) }),
                    dragging := some d }
                    = allCards g + ↑(top :: rest) := by
                  have e : allCards { g with
                      tableau := (Function.update g.tableau i
                        { g.tableau i with up := ((g.tableau i).up ++ (top :: rest)) }),
                      dragging := some d }
                      = snapCards (save_state { g with
                          tableau := (Function.update g.tableau i
                            { g.tableau i with up := ((g.tableau i).up ++ (top :: rest)) }) })
                        + ↑d.subpile := rfl
                  rw [e]
                  have hp : pileCards { g.tableau i with up := ((g.tableau i).up ++ (top :: rest)) }
                      = pileCards (g.tableau i) + ↑(top :: rest) := by
                    simp only [pileCards, ← Multiset.coe_add]
                    abel
                  have h3 := snapCards_update_tableau g i
                    { g.tableau i with up := ((g.tableau i).up ++ (top :: rest)) }
                  rw [hp] at h3
                  have key : snapCards (save_state { g with
                        tableau := (Function.update g.tableau i
                          { g.tableau i with up := ((g.tableau i).up ++ (top :: rest)) }) })
                        + pileCards (g.tableau i)
                      = (snapCards (save_state g) + ↑(top :: rest)) + pileCards (g.tableau i) := by
                    rw [h3]
                    abel
                  have h4 := add_right_cancel key
                  rw [h4, allCards, dragCards_eq_subpile hd, hsub]
                rw [h2] at h1
                have h5 : (↑d.subpile : Multiset Card) = ↑(top :: rest) := by rw [hsub]
                rw [h5] at h1
                exact add_right_cancel h1
              · have hrej : is_valid_tableau_move ((g.tableau i).up) top = false := by
                  simpa using hvalid
                rw [handle_mouse_up_fail g d hd top rest hsub (DropTarget.tableauPile i) hrej]
                exact allCards_fail_clear hd

/-- Claim C3: when the drop target rejects the active run, the whole run
is appended back to its origin pile in its original internal order, every
other field is unchanged, and the drag state is cleared; and every drop
(accepted or not) preserves the multiset of all cards, so no card is ever
left outside all piles. -/
theorem failed_drop_returns_run (g : GameState) (d : DragState) (hd : g.dragging = some d)
    (bottom : Card) (rest : List Card) (hsub : d.subpile = bottom :: rest) (tgt : DropTarget) :
    (drop_rejected g bottom d.subpile.length tgt →
        handle_mouse_up g tgt =
          (match d.source with
           | .waste => { g with waste := g.waste ++ d.subpile, dragging := none }
           | .tableau o =>
               { g with
                 tableau := (Function.update g.tableau o
                   { g.tableau o with up := ((g.tableau o).up ++ d.subpile) }),
                 dragging := none }))
    ∧ allCards (handle_mouse_up g tgt) = allCards g := by
  refine ⟨fun hrej => ?_, allCards_handle_mouse_up g tgt⟩
  have hshape : (match d.source with
      | DragSource.waste => { g with waste := g.waste ++ d.subpile, dragging := none }
      | DragSource.tableau o =>
          { g with
            tableau := (Function.update g.tableau o
              { g.tableau o with up := ((g.tableau o).up ++ d.subpile) }),
            dragging := none })
      = { (on_drop_fail g d) with dragging := none } := by
    cases hsrc : d.source <;> simp [on_drop_fail, hsrc]
  rw [hshape]
  exact handle_mouse_up_fail g d hd bottom rest hsub tgt hrej

/-- Witness for claim C3: a one-card run lifted from the waste, released
off the board, is appended back to the waste. -/
theorem failed_drop_returns_run_witness :
    (handle_mouse_up { init_state create_full_deck with
        dragging := some ⟨DragSource.waste, [⟨Rank.A, Suit.H⟩]⟩ } DropTarget.offBoard =
      { { init_state create_full_deck with
          dragging := some ⟨DragSource.waste, [⟨Rank.A, Suit.H⟩]⟩ } with
        waste := (init_state create_full_deck).waste ++ [⟨Rank.A, Suit.H⟩],
        dragging := none })
    ∧ allCards (handle_mouse_up { init_state create_full_deck with
        dragging := some ⟨DragSource.waste, [⟨Rank.A, Suit.H⟩]⟩ } DropTarget.offBoard) =
      allCards { init_state create_full_deck with
        dragging := some ⟨DragSource.waste, [⟨Rank.A, Suit.H⟩]⟩ } := by
  have h := failed_drop_returns_run
    { init_state create_full_deck with
      dragging := some ⟨DragSource.waste, [⟨Rank.A, Suit.H⟩]⟩ }
    ⟨DragSource.waste, [⟨Rank.A, Suit.H⟩]⟩ rfl ⟨Rank.A, Suit.H⟩ [] rfl DropTarget.offBoard
  exact ⟨h.1 trivial, h.2⟩

lemma tpile_eta (p : TPile) : TPile.mk p.down p.up = p := rfl

/-- A face-up run is valid when each card sits on a card one rank higher
and of opposite color: every adjacent pair satisfies the source's tableau
validator. Empty and single-card runs are trivially valid. -/
def validRun : List Card → Bool
  | [] => true
  | [_] => true
  | a :: b :: rest => is_valid_tableau_move [a] b && validRun (b :: rest)

/-- The spec's "strictly descending, alternating-color" relation between a
card and the card stacked on it. -/
def descLink (a b : Card) : Prop :=
  rank_index b.rank < rank_index a.rank ∧ card_color b ≠ card_color a

lemma validRun_cons_cons (a b : Card) (l : List Card) :
    validRun (a :: b :: l) = (is_valid_tableau_move [a] b && validRun (b :: l)) := rfl

lemma validRun_of_cons {a : Card} {l : List Card} (h : validRun (a :: l) = true) :
    validRun l = true := by
  cases l with
  | nil => rfl
  | cons b t =>
      rw [validRun_cons_cons] at h
      exact ((Bool.and_eq_true _ _ ▸ h) : _ ∧ _).2

lemma validRun_append_right (xs ys : List Card) (h : validRun (xs ++ ys) = true) :
    validRun ys = true := by
  induction xs with
  | nil => exact h
  | cons a t ih => exact ih (validRun_of_cons h)

lemma validRun_append_left (xs ys : List Card) (h : validRun (xs ++ ys) = true) :
    validRun xs = true := by
  induction xs with
  | nil => rfl
  | cons a t ih =>
      cases t with
      | nil => rfl
      | cons b t2 =>
          rw [List.cons_append, List.cons_append, validRun_cons_cons,
            Bool.and_eq_true] at h
          rw [validRun_cons_cons, Bool.and_eq_true]
          exact ⟨h.1, ih h.2⟩

lemma is_valid_tableau_move_congr {l1 l2 : List Card} (h : l1.getLast? = l2.getLast?)
    (c : Card) : is_valid_tableau_move l1 c = is_valid_tableau_move l2 c := by
  unfold is_valid_tableau_move
  rw [h]

lemma validRun_link_append (xs : List Card) (c : Card) (rest : List Card)
    (hxs : validRun xs = true) (hc : validRun (c :: rest) = true)
    (hlink : is_valid_tableau_move xs c = true) :
    validRun (xs ++ c :: rest) = true := by
  induction xs with
  | nil => exact hc
  | cons a t ih =>
      cases t with
      | nil =>
          show validRun (a :: c :: rest) = true
          rw [validRun_cons_cons, Bool.and_eq_true]
          exact ⟨hlink, hc⟩
      | cons b t2 =>
          show validRun (a :: b :: (t2 ++ c :: rest)) = true
          rw [validRun_cons_cons, Bool.and_eq_true] at hxs ⊢
          refine ⟨hxs.1, ih hxs.2 ?_⟩
          rw [@is_valid_tableau_move_congr (a :: b :: t2) (b :: t2)
            List.getLast?_cons_cons c] at hlink
          exact hlink

lemma validRun_short {l : List Card} (h : l.length ≤ 1) : validRun l = true := by
  match l, h with
  | [], _ => rfl
  | [a], _ => rfl

lemma chain_of_validRun (l : List Card) (h : validRun l = true) :
    List.Chain' descLink l := by
  induction l with
  | nil => simp
  | cons a t ih =>
      cases t with
      | nil => simp
      | cons b t2 =>
          rw [validRun_cons_cons, Bool.and_eq_true] at h
          rw [List.chain'_cons]
          refine ⟨?_, ih h.2⟩
          have h3 : (rank_index b.rank + 1 = rank_index a.rank)
              ∧ is_opposite_color b a = true := by
            simpa [is_valid_tableau_move] using h.1
          exact ⟨by omega, (is_opposite_color_iff b a).mp h3.2⟩

lemma click_stock_frame (g : GameState) :
    (click_stock g).tableau = g.tableau ∧ (click_stock g).foundations = g.foundations
    ∧ (click_stock g).dragging = g.dragging ∧ (click_stock g).history = g.history
    ∧ (click_stock g).game_over = g.game_over := by
  unfold click_stock
  split
  · split <;> exact ⟨rfl, rfl, rfl, rfl, rfl⟩
  · split <;> exact ⟨rfl, rfl, rfl, rfl, rfl⟩

lemma check_for_win_history (g : GameState) : (check_for_win g).history = g.history := by
  rw [check_for_win]
  split <;> rfl

lemma check_for_win_tableau (g : GameState) : (check_for_win g).tableau = g.tableau := by
  rw [check_for_win]
  split <;> rfl

lemma flip_tableau_frame (g : GameState) (src : DragSource) :
    (flip_tableau g src).foundations = g.foundations
    ∧ (flip_tableau g src).game_over = g.game_over
    ∧ (flip_tableau g src).history = g.history := by
  unfold flip_tableau
  split
  · exact ⟨rfl, rfl, rfl⟩
  · split <;> exact ⟨rfl, rfl, rfl⟩

lemma on_drop_fail_frame (g : GameState) (d : DragState) :
    (on_drop_fail g d).foundations = g.foundations
    ∧ (on_drop_fail g d).game_over = g.game_over
    ∧ (on_drop_fail g d).history = g.history := by
  unfold on_drop_fail
  split <;> exact ⟨rfl, rfl, rfl⟩

lemma check_for_win_go_of_sum (g : GameState)
    (h : (∑ i : Fin 4, (g.foundations i).length) = 52) :
    (check_for_win g).game_over = true := by
  rw [check_for_win, if_pos h]

lemma check_for_win_go_of_ne (g : GameState)
    (h : (∑ i : Fin 4, (g.foundations i).length) ≠ 52) :
    (check_for_win g).game_over = g.game_over := by
  rw [check_for_win, if_neg h]

lemma check_for_win_win_flag (g : GameState) :
    (∑ i : Fin 4, ((check_for_win g).foundations i).length) = 52 →
    (check_for_win g).game_over = true := by
  intro h52
  have h52g : (∑ i : Fin 4, (g.foundations i).length) = 52 := by
    simpa only [check_for_win_foundations] using h52
  exact check_for_win_go_of_sum g h52g

lemma allCards_click_stock (g : GameState) : allCards (click_stock g) = allCards g := by
  unfold click_stock
  split
  · next heq =>
      have hnil : g.stock = [] := List.getLast?_eq_none_iff.mp heq
      split
      · rfl
      · show snapCards (save_state _) + dragCards g = allCards g
        rw [allCards]
        refine congrArg (fun m => m + dragCards g) ?_
        simp only [snapCards, save_state]
        rw [Multiset.coe_reverse, ← Multiset.coe_add, hnil]
        simp only [Multiset.coe_nil]
        abel
  · next card heq =>
      split
      · show snapCards (save_state _) + dragCards g = allCards g
        rw [allCards]
        refine congrArg (fun m => m + dragCards g) ?_
        simp only [snapCards, save_state, ← Multiset.coe_add]
        rw [← coe_getLast_dropLast heq, ← coe_take_drop g.waste 1, ← List.drop_one]
        abel
      · show snapCards (save_state _) + dragCards g = allCards g
        rw [allCards]
        refine congrArg (fun m => m + dragCards g) ?_
        simp only [snapCards, save_state, ← Multiset.coe_add]
        rw [← coe_getLast_dropLast heq]
        abel

lemma dragCards_eq_zero {g : GameState} (h : g.dragging = none) : dragCards g = 0 := by
  simp [dragCards, h]

/-- Invariant of a history snapshot in a reachable state: it accounts for
the full deck, was taken while the game was not over (and hence not won),
and its tableau face-up runs are valid. -/
def SnapInv (s : Snapshot) : Prop :=
  snapCards s = ↑create_full_deck
  ∧ s.game_over = false
  ∧ (∑ i : Fin 4, (s.foundations i).length) ≠ 52
  ∧ ∀ i, validRun ((s.tableau i).up) = true

/-- The reachability invariant: the full deck is conserved, the game-over
flag is set as soon as the foundations are full, all tableau face-up runs
are valid, the active drag run (if any) is valid and re-appends to a valid
run on its origin pile, and every history snapshot satisfies `SnapInv`. -/
structure Inv (g : GameState) : Prop where
  cards : allCards g = ↑create_full_deck
  win_flag : (∑ i : Fin 4, (g.foundations i).length) = 52 → g.game_over = true
  runs : ∀ i, validRun ((g.tableau i).up) = true
  drag : ∀ d, g.dragging = some d →
      validRun d.subpile = true
      ∧ ∀ i, d.source = DragSource.tableau i →
          validRun ((g.tableau i).up ++ d.subpile) = true
  hist : ∀ s ∈ g.history, SnapInv s

lemma snapInv_save {g : GameState} (hInv : Inv g) (hgo : g.game_over = false)
    (hdrag : g.dragging = none) : SnapInv (save_state g) := by
  refine ⟨?_, hgo, ?_, hInv.runs⟩
  · have h := hInv.cards
    rw [allCards, dragCards_eq_zero hdrag, add_zero] at h
    exact h
  · intro h52
    have h := hInv.win_flag h52
    rw [hgo] at h
    simp at h

lemma guard_false {g : GameState} (h : ¬(g.game_over = true ∨ g.dragging.isSome = true)) :
    g.game_over = false ∧ g.dragging = none := by
  push_neg at h
  constructor
  · cases hb : g.game_over
    · rfl
    · exact absurd hb h.1
  · cases hd : g.dragging with
    | none => rfl
    | some d => exact absurd (by rw [hd]; rfl) h.2

lemma mouse_down_stock_fields (g : GameState) :
    (mouse_down_stock g).tableau = g.tableau
    ∧ (mouse_down_stock g).dragging = g.dragging
    ∧ (mouse_down_stock g).history = save_state g :: g.history
    ∧ (mouse_down_stock g).foundations = g.foundations := by
  unfold mouse_down_stock
  refine ⟨?_, ?_, ?_, ?_⟩
  · rw [check_for_win_tableau]
    exact (click_stock_frame _).1
  · rw [check_for_win_dragging]
    exact (click_stock_frame _).2.2.1
  · rw [check_for_win_history]
    exact (click_stock_frame _).2.2.2.1
  · rw [check_for_win_foundations]
    exact (click_stock_frame _).2.1

lemma inv_mouse_down_stock {g : GameState} (hInv : Inv g) (hgo : g.game_over = false)
    (hdrag : g.dragging = none) : Inv (mouse_down_stock g) := by
  have hc : allCards (mouse_down_stock g) = allCards g := by
    unfold mouse_down_stock
    rw [allCards_check_for_win, allCards_set_move_count, allCards_click_stock]
    rfl
  refine ⟨?_, ?_, ?_, ?_, ?_⟩
  · rw [hc]
    exact hInv.cards
  · intro h52
    unfold mouse_down_stock at h52 ⊢
    exact check_for_win_win_flag _ h52
  · intro i
    rw [(mouse_down_stock_fields g).1]
    exact hInv.runs i
  · intro d hd
    rw [(mouse_down_stock_fields g).2.1, hdrag] at hd
    exact Option.noConfusion hd
  · intro s hs
    rw [(mouse_down_stock_fields g).2.2.1] at hs
    rcases List.mem_cons.mp hs with h1 | h2
    · exact h1 ▸ snapInv_save hInv hgo hdrag
    · exact hInv.hist s h2

lemma inv_mouse_down_waste {g : GameState} (hInv : Inv g) (hgo : g.game_over = false)
    (hdrag : g.dragging = none) : Inv (mouse_down_waste g) := by
  unfold mouse_down_waste
  split
  · exact hInv
  · next c heq =>
      refine ⟨?_, ?_, ?_, ?_, ?_⟩
      · have hsnap : snapCards (save_state { g with
            history := save_state g :: g.history,
            waste := g.waste.dropLast,
            dragging := some ⟨DragSource.waste, [c]⟩ })
            + ↑([c] : List Card) = snapCards (save_state g) := by
          simp only [snapCards, save_state]
          rw [← coe_getLast_dropLast heq]
          abel
        rw [allCards]
        show snapCards _ + ↑([c] : List Card) = _
        rw [hsnap]
        exact (snapInv_save hInv hgo hdrag).1
      · intro h52
        exact hInv.win_flag h52
      · intro i
        exact hInv.runs i
      · intro d hd
        have hd2 := Option.some.inj hd
        subst hd2
        refine ⟨rfl, ?_⟩
        intro i habs
        exact DragSource.noConfusion habs
      · intro s hs
        rcases List.mem_cons.mp hs with h1 | h2
        · exact h1 ▸ snapInv_save hInv hgo hdrag
        · exact hInv.hist s h2

lemma inv_mouse_down_tableau {g : GameState} (hInv : Inv g) (hgo : g.game_over = false)
    (hdrag : g.dragging = none) (i : Fin 7) (cindex : Nat) :
    Inv (mouse_down_tableau g i cindex) := by
  unfold mouse_down_tableau
  split
  · next hci =>
      refine ⟨?_, ?_, ?_, ?_, ?_⟩
      · have e : save_state { g with
            history := save_state g :: g.history,
            tableau := (Function.update g.tableau i
              { g.tableau i with up := ((g.tableau i).up).take cindex }),
            dragging := some ⟨DragSource.tableau i, ((g.tableau i).up).drop cindex⟩ }
            = save_state { g with tableau := (Function.update g.tableau i
                { g.tableau i with up := ((g.tableau i).up).take cindex }) } := rfl
        have h1 := snapCards_update_tableau g i
          { g.tableau i with up := ((g.tableau i).up).take cindex }
        have hp : pileCards { g.tableau i with up := ((g.tableau i).up).take cindex }
            + ↑(((g.tableau i).up).drop cindex) = pileCards (g.tableau i) := by
          simp only [pileCards]
          rw [add_assoc, coe_take_drop]
        have key : (snapCards (save_state { g with tableau := (Function.update g.tableau i
              { g.tableau i with up := ((g.tableau i).up).take cindex }) })
              + ↑(((g.tableau i).up).drop cindex)) + pileCards (g.tableau i)
            = snapCards (save_state g) + pileCards (g.tableau i) := by
          rw [add_right_comm, h1, add_assoc, hp]
        have hsnap := add_right_cancel key
        rw [allCards]
        show snapCards _ + ↑(((g.tableau i).up).drop cindex) = _
        rw [e, hsnap]
        exact (snapInv_save hInv hgo hdrag).1
      · intro h52
        exact hInv.win_flag h52
      · intro j
        show validRun ((Function.update g.tableau i
          { g.tableau i with up := ((g.tableau i).up).take cindex } j).up) = true
        by_cases hj : j = i
        · subst hj
          rw [Function.update_same]
          have h := hInv.runs j
          rw [← List.take_append_drop cindex ((g.tableau j).up)] at h
          exact validRun_append_left _ _ h
        · rw [Function.update_noteq hj]
          exact hInv.runs j
      · intro d hd
        have hd2 := Option.some.inj hd
        subst hd2
        constructor
        · have h := hInv.runs i
          rw [← List.take_append_drop cindex ((g.tableau i).up)] at h
          exact validRun_append_right _ _ h
        · intro j hj
          have hij : i = j := by
            injection hj
          subst hij
          show validRun ((Function.update g.tableau i
            { g.tableau i with up := ((g.tableau i).up).take cindex } i).up
              ++ ((g.tableau i).up).drop cindex) = true
          rw [Function.update_same]
          show validRun (((g.tableau i).up).take cindex ++ ((g.tableau i).up).drop cindex) = true
          rw [List.take_append_drop]
          exact hInv.runs i
      · intro s hs
        rcases List.mem_cons.mp hs with h1 | h2
        · exact h1 ▸ snapInv_save hInv hgo hdrag
        · exact hInv.hist s h2
  · exact hInv

lemma inv_handle_undo {g : GameState} (hInv : Inv g) (hgo : g.game_over = false)
    (hdrag : g.dragging = none) : Inv (handle_undo g) := by
  unfold handle_undo
  split
  · exact hInv
  · next prev rest heq =>
      obtain ⟨hcards, hgo2, hsum, hruns⟩ :=
        hInv.hist prev (by rw [heq]; exact List.mem_cons_self prev rest)
      refine ⟨?_, ?_, ?_, ?_, ?_⟩
      · calc allCards { load_state { g with history := rest } prev with
              move_count := max 0 ((load_state { g with history := rest } prev).move_count - 1) }
            = snapCards prev + dragCards g := rfl
          _ = ↑create_full_deck := by rw [dragCards_eq_zero hdrag, add_zero, hcards]
      · intro h52
        exact absurd h52 hsum
      · intro j
        exact hruns j
      · intro d hd
        have hd2 : g.dragging = some d := hd
        rw [hdrag] at hd2
        exact Option.noConfusion hd2
      · intro s hs
        exact hInv.hist s (by rw [heq]; exact List.mem_cons_of_mem _ hs)

lemma runs_flip {Y : GameState} (h : ∀ j, validRun ((Y.tableau j).up) = true)
    (src : DragSource) : ∀ j, validRun (((flip_tableau Y src).tableau j).up) = true := by
  intro j
  unfold flip_tableau
  split
  · exact h j
  · next o =>
      split
      · next c hup hdn =>
          show validRun ((Function.update Y.tableau o
            { down := ((Y.tableau o).down).dropLast, up := [c] } j).up) = true
          by_cases hj : j = o
          · subst hj
            rw [Function.update_same]
            rfl
          · rw [Function.update_noteq hj]
            exact h j
      · exact h j

lemma on_drop_success_runs {Y : GameState} (h : ∀ j, validRun ((Y.tableau j).up) = true)
    (src : DragSource) : ∀ j, validRun (((on_drop_success Y src).tableau j).up) = true := by
  intro j
  unfold on_drop_success
  rw [check_for_win_tableau]
  show validRun (((flip_tableau Y src).tableau j).up) = true
  exact runs_flip h src j

lemma on_drop_success_history (Y : GameState) (src : DragSource) :
    (on_drop_success Y src).history = Y.history := by
  unfold on_drop_success
  rw [check_for_win_history]
  exact (flip_tableau_frame Y src).2.2

lemma inv_fail {g : GameState} {d : DragState} (hInv : Inv g) (hd : g.dragging = some d) :
    Inv { (on_drop_fail g d) with dragging := none } := by
  obtain ⟨hrunsub, hsrcsub⟩ := hInv.drag d hd
  refine ⟨?_, ?_, ?_, ?_, ?_⟩
  · rw [allCards_fail_clear hd]
    exact hInv.cards
  · intro h52
    have hf := on_drop_fail_frame g d
    show (on_drop_fail g d).game_over = true
    rw [hf.2.1]
    apply hInv.win_flag
    simpa only [hf.1] using h52
  · intro j
    show validRun (((on_drop_fail g d).tableau j).up) = true
    unfold on_drop_fail
    split
    · exact hInv.runs j
    · next o hsrc =>
        show validRun ((Function.update g.tableau o
          { g.tableau o with up := ((g.tableau o).up ++ d.subpile) } j).up) = true
        by_cases hj : j = o
        · subst hj
          rw [Function.update_same]
          exact hsrcsub j hsrc
        · rw [Function.update_noteq hj]
          exact hInv.runs j
  · intro d2 hd2
    exact Option.noConfusion hd2
  · intro s hs
    apply hInv.hist s
    have hf := on_drop_fail_frame g d
    have hs2 : s ∈ (on_drop_fail g d).history := hs
    rwa [hf.2.2] at hs2

lemma inv_handle_mouse_up {g : GameState} (hInv : Inv g) (tgt : DropTarget) :
    Inv (handle_mouse_up g tgt) := by
  have hcards : allCards (handle_mouse_up g tgt) = ↑create_full_deck := by
    rw [allCards_handle_mouse_up]
    exact hInv.cards
  cases hd : g.dragging with
  | none =>
      rw [handle_mouse_up_none g hd]
      exact hInv
  | some d =>
      cases hsub : d.subpile with
      | nil =>
          rw [handle_mouse_up_nil_subpile g d hd hsub] at hcards ⊢
          refine ⟨hcards, ?_, ?_, ?_, ?_⟩
          · intro h52
            exact hInv.win_flag h52
          · intro j
            exact hInv.runs j
          · intro d2 hd2
            exact Option.noConfusion hd2
          · intro s hs
            exact hInv.hist s hs
      | cons top rest =>
          obtain ⟨hrunsub, hsrcsub⟩ := hInv.drag d hd
          cases tgt with
          | offBoard =>
              rw [handle_mouse_up_fail g d hd top rest hsub DropTarget.offBoard trivial]
              exact inv_fail hInv hd
          | foundation i =>
              by_cases hcond : d.subpile.length = 1
                  ∧ is_valid_foundation_move (g.foundations i) top (foundation_suits i) = true
              · have hrest : rest = [] := by
                  have h0 := hcond.1
                  rw [hsub] at h0
                  simpa using h0
                subst hrest
                rw [handle_mouse_up_foundation_success g d hd top hsub i hcond.2] at hcards ⊢
                refine ⟨hcards, ?_, ?_, ?_, ?_⟩
                · intro h52
                  unfold on_drop_success at h52 ⊢
                  exact check_for_win_win_flag _ h52
                · exact @on_drop_success_runs { g with
                      foundations := (Function.update g.foundations i (g.foundations i ++ [top])),
                      dragging := none } (fun j => hInv.runs j) d.source
                · intro d2 hd2
                  rw [on_drop_success_dragging] at hd2
                  exact Option.noConfusion hd2
                · intro s hs
                  rw [on_drop_success_history] at hs
                  exact hInv.hist s hs
              · rw [handle_mouse_up_fail g d hd top rest hsub (DropTarget.foundation i) hcond]
                exact inv_fail hInv hd
          | tableauPile i =>
              by_cases hvalid : is_valid_tableau_move ((g.tableau i).up) top = true
              · rw [handle_mouse_up_tableau_success g d hd top rest hsub i hvalid] at hcards ⊢
                have hruns2 : ∀ j, validRun ((({ g with
                    tableau := (Function.update g.tableau i
                      { g.tableau i with up := ((g.tableau i).up ++ (top :: rest)) }),
                    dragging := some d } : GameState).tableau j).up) = true := by
                  intro j
                  show validRun ((Function.update g.tableau i
                    { g.tableau i with up := ((g.tableau i).up ++ (top :: rest)) } j).up) = true
                  by_cases hj : j = i
                  · subst hj
                    rw [Function.update_same]
                    show validRun ((g.tableau j).up ++ (top :: rest)) = true
                    refine validRun_link_append _ top rest (hInv.runs j) ?_ hvalid
                    rw [← hsub]
                    exact hrunsub
                  · rw [Function.update_noteq hj]
                    exact hInv.runs j
                refine ⟨hcards, ?_, ?_, ?_, ?_⟩
                · intro h52
                  show (on_drop_success { g with
                      tableau := (Function.update g.tableau i
                        { g.tableau i with up := ((g.tableau i).up ++ (top :: rest)) }),
                      dragging := some d } d.source).game_over = true
                  have h52b : (∑ j : Fin 4, ((on_drop_success { g with
                      tableau := (Function.update g.tableau i
                        { g.tableau i with up := ((g.tableau i).up ++ (top :: rest)) }),
                      dragging := some d } d.source).foundations j).length) = 52 := h52
                  unfold on_drop_success at h52b ⊢
                  exact check_for_win_win_flag _ h52b
                · intro j
                  exact on_drop_success_runs hruns2 d.source j
                · intro d2 hd2
                  exact Option.noConfusion hd2
                · intro s hs
                  have hs2 : s ∈ (on_drop_success { g with
                      tableau := (Function.update g.tableau i
                        { g.tableau i with up := ((g.tableau i).up ++ (top :: rest)) }),
                      dragging := some d } d.source).history := hs
                  rw [on_drop_success_history] at hs2
                  exact hInv.hist s hs2
              · have hrej : is_valid_tableau_move ((g.tableau i).up) top = false := by
                  simpa using hvalid
                rw [handle_mouse_up_fail g d hd top rest hsub (DropTarget.tableauPile i) hrej]
                exact inv_fail hInv hd

lemma inv_step {g : GameState} (hInv : Inv g) (a : Action) : Inv (step g a) := by
  cases a with
  | clickStock =>
      show Inv (if g.game_over ∨ g.dragging.isSome then g else mouse_down_stock g)
      split
      · exact hInv
      · next h =>
          obtain ⟨hgo, hdrag⟩ := guard_false h
          exact inv_mouse_down_stock hInv hgo hdrag
  | liftWaste =>
      show Inv (if g.game_over ∨ g.dragging.isSome then g else mouse_down_waste g)
      split
      · exact hInv
      · next h =>
          obtain ⟨hgo, hdrag⟩ := guard_false h
          exact inv_mouse_down_waste hInv hgo hdrag
  | liftTableau i cindex =>
      show Inv (if g.game_over ∨ g.dragging.isSome then g else mouse_down_tableau g i cindex)
      split
      · exact hInv
      · next h =>
          obtain ⟨hgo, hdrag⟩ := guard_false h
          exact inv_mouse_down_tableau hInv hgo hdrag i cindex
  | undo =>
      show Inv (if g.game_over ∨ g.dragging.isSome then g else handle_undo g)
      split
      · exact hInv
      · next h =>
          obtain ⟨hgo, hdrag⟩ := guard_false h
          exact inv_handle_undo hInv hgo hdrag
  | drop tgt => exact inv_handle_mouse_up hInv tgt

lemma inv_steps {g : GameState} (hInv : Inv g) (acts : List Action) :
    Inv (steps g acts) := by
  induction acts generalizing g with
  | nil => exact hInv
  | cons a l ih => exact ih (inv_step hInv a)

/-- Claim C10: a lift whose drop is then rejected restores every pile,
the foundations, the move count and the game-over flag to their values
from immediately before the lift, while leaving the history exactly one
snapshot longer; an undo right after such a cancelled drag therefore
changes no pile and only floor-decrements the move count. -/
theorem cancelled_drag_consumes_undo (g : GameState) (hgo : g.game_over = false)
    (hdrag : g.dragging = none) :
    (∀ c, g.waste.getLast? = some c →
       ∀ tgt, drop_rejected (step g Action.liftWaste) c 1 tgt →
         steps g [Action.liftWaste, Action.drop tgt]
           = { g with history := save_state g :: g.history }
         ∧ steps g [Action.liftWaste, Action.drop tgt, Action.undo]
           = { g with move_count := max 0 (g.move_count - 1) })
    ∧ (∀ (i : Fin 7) (cindex : Nat), cindex < ((g.tableau i).up).length →
       ∀ bottom rest, ((g.tableau i).up).drop cindex = bottom :: rest →
       ∀ tgt, drop_rejected (step g (Action.liftTableau i cindex))
           bottom (bottom :: rest).length tgt →
         steps g [Action.liftTableau i cindex, Action.drop tgt]
           = { g with history := save_state g :: g.history }
         ∧ steps g [Action.liftTableau i cindex, Action.drop tgt, Action.undo]
           = { g with move_count := max 0 (g.move_count - 1) }) := by
  have hafter : step { g with history := save_state g :: g.history } Action.undo
      = { g with move_count := max 0 (g.move_count - 1) } := by
    simp only [step, hgo, hdrag]
    simp [handle_undo, load_state, save_state, hdrag, hgo]
  constructor
  · intro c hw tgt hrej
    have hlift : step g Action.liftWaste = { g with
        history := save_state g :: g.history,
        waste := g.waste.dropLast,
        dragging := some ⟨DragSource.waste, [c]⟩ } := by
      simp only [step, hgo, hdrag]
      simp [mouse_down_waste, hw, hgo, hdrag]
    have hg1d : (step g Action.liftWaste).dragging
        = some (⟨DragSource.waste, [c]⟩ : DragState) := by
      rw [hlift]
    have hdropres := handle_mouse_up_fail (step g Action.liftWaste)
      ⟨DragSource.waste, [c]⟩ hg1d c [] rfl tgt hrej
    have hmain : steps g [Action.liftWaste, Action.drop tgt]
        = { g with history := save_state g :: g.history } := by
      show step (step g Action.liftWaste) (Action.drop tgt) = _
      have hstep : step (step g Action.liftWaste) (Action.drop tgt)
          = handle_mouse_up (step g Action.liftWaste) tgt := rfl
      rw [hstep, hdropres, hlift]
      simp only [on_drop_fail]
      simp [List.dropLast_append_getLast? c hw, hdrag]
    refine ⟨hmain, ?_⟩
    show step (steps g [Action.liftWaste, Action.drop tgt]) Action.undo = _
    rw [hmain, hafter]
  · intro i cindex hci bottom rest hdropeq tgt hrej
    have hlift : step g (Action.liftTableau i cindex) = { g with
        history := save_state g :: g.history,
        tableau := (Function.update g.tableau i
          { g.tableau i with up := ((g.tableau i).up).take cindex }),
        dragging := some ⟨DragSource.tableau i, ((g.tableau i).up).drop cindex⟩ } := by
      simp only [step, hgo, hdrag]
      simp [mouse_down_tableau, hci, hgo, hdrag]
    have hg1d : (step g (Action.liftTableau i cindex)).dragging
        = some (⟨DragSource.tableau i, ((g.tableau i).up).drop cindex⟩ : DragState) := by
      rw [hlift]
    have hrej2 : drop_rejected (step g (Action.liftTableau i cindex)) bottom
        ((⟨DragSource.tableau i, ((g.tableau i).up).drop cindex⟩ : DragState)).subpile.length
        tgt := by
      show drop_rejected _ bottom (((g.tableau i).up).drop cindex).length tgt
      rw [hdropeq]
      exact hrej
    have hdropres := handle_mouse_up_fail (step g (Action.liftTableau i cindex))
      ⟨DragSource.tableau i, ((g.tableau i).up).drop cindex⟩ hg1d bottom rest hdropeq tgt hrej2
    have hmain : steps g [Action.liftTableau i cindex, Action.drop tgt]
        = { g with history := save_state g :: g.history } := by
      show step (step g (Action.liftTableau i cindex)) (Action.drop tgt) = _
      have hstep : step (step g (Action.liftTableau i cindex)) (Action.drop tgt)
          = handle_mouse_up (step g (Action.liftTableau i cindex)) tgt := rfl
      rw [hstep, hdropres, hlift]
      simp only [on_drop_fail]
      simp [Function.update_same, Function.update_idem, List.take_append_drop, tpile_eta,
        Function.update_eq_self, hdrag]
    refine ⟨hmain, ?_⟩
    show step (steps g [Action.liftTableau i cindex, Action.drop tgt]) Action.undo = _
    rw [hmain, hafter]

/-- Witness for claim C10: lifting the single face-up card of the first
tableau pile of a fresh game and releasing it off the board. -/
theorem cancelled_drag_consumes_undo_witness :
    steps (init_state create_full_deck)
        [Action.liftTableau 0 0, Action.drop DropTarget.offBoard]
      = { init_state create_full_deck with
          history := save_state (init_state create_full_deck)
            :: (init_state create_full_deck).history }
    ∧ steps (init_state create_full_deck)
        [Action.liftTableau 0 0, Action.drop DropTarget.offBoard, Action.undo]
      = { init_state create_full_deck with
          move_count := max 0 ((init_state create_full_deck).move_count - 1) } :=
  (cancelled_drag_consumes_undo (init_state create_full_deck) rfl rfl).2
    0 0 (by decide) ⟨Rank.A, Suit.H⟩ [] (by decide) DropTarget.offBoard trivial

/-- Claim C2: the DrawFromStock contract of `click_stock`. With a
non-empty stock it pops the top card and appends it to the waste, first
moving the waste's oldest card to spent when the waste already holds 3
cards (so four draws from a fresh stock leave the first-drawn card in
spent and the other three in the waste); with an empty stock it rebuilds
the stock as the reversal of spent-then-waste and clears both, and when
stock, waste and spent are all empty it changes nothing. -/
theorem draw_from_stock_contract (g : GameState) :
    (∀ s c, g.stock = s ++ [c] →
        (g.waste.length ≠ 3 →
          click_stock g = { g with stock := s, waste := g.waste ++ [c] })
        ∧ (∀ w0 wrest, g.waste = w0 :: wrest → g.waste.length = 3 →
          click_stock g =
            { g with stock := s, waste := wrest ++ [c], spent := g.spent ++ [w0] }))
    ∧ (g.stock = [] → ¬(g.waste = [] ∧ g.spent = []) →
        click_stock g =
          { g with stock := (g.spent ++ g.waste).reverse, waste := [], spent := [] })
    ∧ (g.stock = [] → g.waste = [] → g.spent = [] → click_stock g = g)
    ∧ (∀ r c1 c2 c3 c4, g.stock = r ++ [c4, c3, c2, c1] → g.waste = [] → g.spent = [] →
        click_stock (click_stock (click_stock (click_stock g))) =
          { g with stock := r, waste := [c2, c3, c4], spent := [c1] }) := by
  refine ⟨fun s c hs => ⟨fun hw => ?_, fun w0 wrest hw h3 => ?_⟩,
    fun hs hne => ?_, fun hs hw hsp => ?_, fun r c1 c2 c3 c4 hs hw hsp => ?_⟩
  · simp [click_stock, hs, List.getLast?_concat, List.dropLast_concat, hw]
  · have h2 : wrest.length = 2 := by
      rw [hw] at h3
      simpa using h3
    simp [click_stock, hs, List.getLast?_concat, List.dropLast_concat, hw, h2]
  · rw [click_stock, hs]
    simp only [List.getLast?_nil]
    rw [if_neg hne]
  · simp [click_stock, hs, hw, hsp]
  · have h1 : click_stock g = { g with stock := r ++ [c4, c3, c2], waste := [c1] } := by
      simp [click_stock, hs, List.getLast?_append, List.dropLast_append_of_ne_nil, hw]
    have h2 : click_stock (click_stock g) =
        { g with stock := r ++ [c4, c3], waste := [c1, c2] } := by
      rw [h1]
      simp [click_stock, List.getLast?_append, List.dropLast_append_of_ne_nil]
    have h3 : click_stock (click_stock (click_stock g)) =
        { g with stock := r ++ [c4], waste := [c1, c2, c3] } := by
      rw [h2]
      simp [click_stock, List.getLast?_append, List.dropLast_append_of_ne_nil]
    rw [h3]
    simp [click_stock, List.getLast?_append, List.dropLast_append_of_ne_nil, hsp]

/-- Witness for claim C2, drawing the only stock card onto an empty waste
and recycling a stock from waste and spent. -/
theorem draw_from_stock_contract_witness :
    (click_stock { init_state create_full_deck with stock := [⟨Rank.A, Suit.H⟩] } =
      { init_state create_full_deck with stock := [], waste := [⟨Rank.A, Suit.H⟩] })
    ∧ (click_stock { init_state create_full_deck with
          stock := [], waste := [⟨Rank.R2, Suit.S⟩], spent := [⟨Rank.R3, Suit.C⟩] } =
        { init_state create_full_deck with
          stock := [⟨Rank.R2, Suit.S⟩, ⟨Rank.R3, Suit.C⟩], waste := [], spent := [] }) := by
  constructor
  · have h := ((draw_from_stock_contract
      { init_state create_full_deck with stock := [⟨Rank.A, Suit.H⟩] }).1
        [] ⟨Rank.A, Suit.H⟩ rfl).1 (by decide)
    simpa using h
  · have h := (draw_from_stock_contract { init_state create_full_deck with
        stock := [], waste := [⟨Rank.R2, Suit.S⟩], spent := [⟨Rank.R3, Suit.C⟩] }).2.1
      rfl (by simp)
    simpa using h

/-- Claim C4: with a non-empty history, `handle_undo` pops the most recent
snapshot, replaces the seven persistent fields with its values and then
floor-decrements the restored move count; with an empty history it changes
nothing. -/
theorem undo_spec (g : GameState) :
    (∀ s rest, g.history = s :: rest →
        handle_undo g =
          { g with tableau := s.tableau, stock := s.stock, waste := s.waste,
                   spent := s.spent, foundations := s.foundations,
                   move_count := max 0 (s.move_count - 1),
                   game_over := s.game_over, history := rest })
    ∧ (g.history = [] → handle_undo g = g) := by
  constructor
  · intro s rest h
    simp [handle_undo, h, load_state]
  · intro h
    simp [handle_undo, h]

/-- Witness for claim C4 at a one-entry history and at an empty history. -/
theorem undo_spec_witness :
    (handle_undo { init_state create_full_deck with
        history := [save_state (init_state create_full_deck)], move_count := 5 } =
      { { init_state create_full_deck with
          history := [save_state (init_state create_full_deck)], move_count := 5 } with
        tableau := (save_state (init_state create_full_deck)).tableau,
        stock := (save_state (init_state create_full_deck)).stock,
        waste := (save_state (init_state create_full_deck)).waste,
        spent := (save_state (init_state create_full_deck)).spent,
        foundations := (save_state (init_state create_full_deck)).foundations,
        move_count := max 0 ((save_state (init_state create_full_deck)).move_count - 1),
        game_over := (save_state (init_state create_full_deck)).game_over,
        history := [] })
    ∧ handle_undo (init_state create_full_deck) = init_state create_full_deck :=
  ⟨(undo_spec _).1 (save_state (init_state create_full_deck)) [] rfl,
   (undo_spec (init_state create_full_deck)).2 rfl⟩

/-- Claim C9: restoring a saved snapshot puts back exactly the seven saved
fields, whatever has happened to the live state in between; and since
snapshots are immutable values here (deep copies in the source), the
snapshot and the restored state are independent of later mutations. -/
theorem snapshot_roundtrip (g glive : GameState) :
    load_state glive (save_state g) =
      { glive with tableau := g.tableau, stock := g.stock, waste := g.waste,
                   spent := g.spent, foundations := g.foundations,
                   move_count := g.move_count, game_over := g.game_over }
    ∧ save_state (load_state glive (save_state g)) = save_state g :=
  ⟨rfl, rfl⟩

lemma allCards_init (deck : List Card) : allCards (init_state deck) = ↑deck := by
  have h : ∀ a b c : Nat, a + b = c →
      (↑((deck.drop a).take b) : Multiset Card) + ↑(deck.drop c) = ↑(deck.drop a) := by
    intro a b c hc
    subst hc
    rw [← List.drop_drop]
    exact coe_take_drop (deck.drop a) b
  rw [allCards, dragCards_eq_zero rfl, add_zero]
  simp only [snapCards, save_state, init_state, setup_tableau, pileCards, dealt_before]
  rw [Fin.sum_univ_seven, Fin.sum_univ_four]
  have e3 : ((3 : Fin 7) : Nat) = 3 := rfl
  have e4 : ((4 : Fin 7) : Nat) = 4 := rfl
  have e5 : ((5 : Fin 7) : Nat) = 5 := rfl
  have e6 : ((6 : Fin 7) : Nat) = 6 := rfl
  norm_num [e3, e4, e5, e6]
  rw [← Multiset.coe_eq_coe]
  simp only [← Multiset.coe_add]
  rw [← List.drop_one]
  conv_rhs => rw [← coe_take_drop deck 1]
  rw [← h 1 1 2 rfl, ← h 2 1 3 rfl, ← h 3 2 5 rfl, ← h 5 1 6 rfl, ← h 6 3 9 rfl,
    ← h 9 1 10 rfl, ← h 10 4 14 rfl, ← h 14 1 15 rfl, ← h 15 5 20 rfl,
    ← h 20 1 21 rfl, ← h 21 6 27 rfl, ← h 27 1 28 rfl]
  abel

lemma create_full_deck_nodup : create_full_deck.Nodup := by decide

lemma inv_init (deck : List Card) (hperm : deck.Perm create_full_deck) :
    Inv (init_state deck) := by
  refine ⟨?_, ?_, ?_, ?_, ?_⟩
  · rw [allCards_init]
    exact Multiset.coe_eq_coe.mpr hperm
  · intro h52
    simp [init_state] at h52
  · intro i
    show validRun ((deck.drop (dealt_before i.1 + i.1)).take 1) = true
    exact validRun_short (List.length_take_le 1 _)
  · intro d hd
    exact Option.noConfusion hd
  · intro s hs
    exact absurd hs (List.not_mem_nil s)

lemma mouse_down_waste_go (g : GameState) :
    (mouse_down_waste g).game_over = g.game_over := by
  unfold mouse_down_waste
  split <;> rfl

lemma mouse_down_tableau_go (g : GameState) (i : Fin 7) (cindex : Nat) :
    (mouse_down_tableau g i cindex).game_over = g.game_over := by
  unfold mouse_down_tableau
  split <;> rfl

lemma step_clickStock_eq (g : GameState) (h : ¬(g.game_over = true ∨ g.dragging.isSome = true)) :
    step g Action.clickStock = mouse_down_stock g := by
  show (if g.game_over ∨ g.dragging.isSome then g else mouse_down_stock g) = _
  rw [if_neg h]

lemma check_mc_go_cases (X : GameState) (hgoX : X.game_over = false) :
    (check_for_win { X with move_count := X.move_count + 1 }).game_over = false
    ∨ (∑ i : Fin 4,
        ((check_for_win { X with move_count := X.move_count + 1 }).foundations i).length)
      = 52 := by
  by_cases h52 : (∑ i : Fin 4, (X.foundations i).length) = 52
  · refine Or.inr ?_
    simp only [check_for_win_foundations]
    exact h52
  · refine Or.inl ?_
    rw [check_for_win_go_of_ne { X with move_count := X.move_count + 1 } h52]
    exact hgoX

lemma step_go_cases {g : GameState} (hInv : Inv g) (hgo : g.game_over = false) (a : Action) :
    (step g a).game_over = false
    ∨ (∑ i : Fin 4, ((step g a).foundations i).length) = 52 := by
  cases a with
  | clickStock =>
      by_cases hguard : g.game_over = true ∨ g.dragging.isSome = true
      · have he : step g Action.clickStock = g := by
          show (if g.game_over ∨ g.dragging.isSome then g else mouse_down_stock g) = g
          rw [if_pos hguard]
        rw [he]
        exact Or.inl hgo
      · rw [step_clickStock_eq g hguard]
        unfold mouse_down_stock
        refine check_mc_go_cases
          (click_stock { g with history := save_state g :: g.history }) ?_
        rw [(click_stock_frame _).2.2.2.2]
        exact hgo
  | liftWaste =>
      by_cases hguard : g.game_over = true ∨ g.dragging.isSome = true
      · have he : step g Action.liftWaste = g := by
          show (if g.game_over ∨ g.dragging.isSome then g else mouse_down_waste g) = g
          rw [if_pos hguard]
        rw [he]
        exact Or.inl hgo
      · have he : step g Action.liftWaste = mouse_down_waste g := by
          show (if g.game_over ∨ g.dragging.isSome then g else mouse_down_waste g) = _
          rw [if_neg hguard]
        rw [he, mouse_down_waste_go]
        exact Or.inl hgo
  | liftTableau i cindex =>
      by_cases hguard : g.game_over = true ∨ g.dragging.isSome = true
      · have he : step g (Action.liftTableau i cindex) = g := by
          show (if g.game_over ∨ g.dragging.isSome then g
            else mouse_down_tableau g i cindex) = g
          rw [if_pos hguard]
        rw [he]
        exact Or.inl hgo
      · have he : step g (Action.liftTableau i cindex) = mouse_down_tableau g i cindex := by
          show (if g.game_over ∨ g.dragging.isSome then g
            else mouse_down_tableau g i cindex) = _
          rw [if_neg hguard]
        rw [he, mouse_down_tableau_go]
        exact Or.inl hgo
  | undo =>
      by_cases hguard : g.game_over = true ∨ g.dragging.isSome = true
      · have he : step g Action.undo = g := by
          show (if g.game_over ∨ g.dragging.isSome then g else handle_undo g) = g
          rw [if_pos hguard]
        rw [he]
        exact Or.inl hgo
      · have he : step g Action.undo = handle_undo g := by
          show (if g.game_over ∨ g.dragging.isSome then g else handle_undo g) = _
          rw [if_neg hguard]
        rw [he]
        refine Or.inl ?_
        unfold handle_undo
        split
        · exact hgo
        · next prev rest heq =>
            exact (hInv.hist prev (by rw [heq]; exact List.mem_cons_self prev rest)).2.1
  | drop tgt =>
      show (handle_mouse_up g tgt).game_over = false
        ∨ (∑ i : Fin 4, ((handle_mouse_up g tgt).foundations i).length) = 52
      cases hd : g.dragging with
      | none =>
          rw [handle_mouse_up_none g hd]
          exact Or.inl hgo
      | some d =>
          cases hsub : d.subpile with
          | nil =>
              rw [handle_mouse_up_nil_subpile g d hd hsub]
              exact Or.inl hgo
          | cons top rest =>
              cases tgt with
              | offBoard =>
                  rw [handle_mouse_up_fail g d hd top rest hsub DropTarget.offBoard trivial]
                  refine Or.inl ?_
                  show (on_drop_fail g d).game_over = false
                  rw [(on_drop_fail_frame g d).2.1]
                  exact hgo
              | foundation i =>
                  by_cases hcond : d.subpile.length = 1
                      ∧ is_valid_foundation_move (g.foundations i) top (foundation_suits i)
                        = true
                  · have hrest : rest = [] := by
                      have h0 := hcond.1
                      rw [hsub] at h0
                      simpa using h0
                    subst hrest
                    rw [handle_mouse_up_foundation_success g d hd top hsub i hcond.2]
                    unfold on_drop_success
                    refine check_mc_go_cases (flip_tableau { g with
                      foundations :=
                        (Function.update g.foundations i (g.foundations i ++ [top])),
                      dragging := none } d.source) ?_
                    rw [(flip_tableau_frame _ d.source).2.1]
                    exact hgo
                  · rw [handle_mouse_up_fail g d hd top rest hsub (DropTarget.foundation i)
                      hcond]
                    refine Or.inl ?_
                    show (on_drop_fail g d).game_over = false
                    rw [(on_drop_fail_frame g d).2.1]
                    exact hgo
              | tableauPile i =>
                  by_cases hvalid : is_valid_tableau_move ((g.tableau i).up) top = true
                  · rw [handle_mouse_up_tableau_success g d hd top rest hsub i hvalid]
                    show (on_drop_success { g with
                        tableau := (Function.update g.tableau i
                          { g.tableau i with up := ((g.tableau i).up ++ (top :: rest)) }),
                        dragging := some d } d.source).game_over = false ∨
                      (∑ j : Fin 4, ((on_drop_success { g with
                        tableau := (Function.update g.tableau i
                          { g.tableau i with up := ((g.tableau i).up ++ (top :: rest)) }),
                        dragging := some d } d.source).foundations j).length) = 52
                    unfold on_drop_success
                    refine check_mc_go_cases (flip_tableau { g with
                      tableau := (Function.update g.tableau i
                        { g.tableau i with up := ((g.tableau i).up ++ (top :: rest)) }),
                      dragging := some d } d.source) ?_
                    rw [(flip_tableau_frame _ d.source).2.1]
                    exact hgo
                  · have hrej : is_valid_tableau_move ((g.tableau i).up) top = false := by
                      simpa using hvalid
                    rw [handle_mouse_up_fail g d hd top rest hsub (DropTarget.tableauPile i)
                      hrej]
                    refine Or.inl ?_
                    show (on_drop_fail g d).game_over = false
                    rw [(on_drop_fail_frame g d).2.1]
                    exact hgo

/-- Claim C1: in every state reachable from a fresh game (any shuffled
deck) by any sequence of engine actions, the multiset of all cards across
stock, waste, spent, the seven tableau piles, the four foundations and the
active drag run is exactly the 52 distinct rank-suit cards: none missing,
none duplicated. Reachability covers the state before and after each
action of the sequence. -/
theorem card_conservation (deck : List Card) (hdeck : deck.Perm create_full_deck)
    (acts : List Action) :
    allCards (steps (init_state deck) acts) = (create_full_deck : Multiset Card)
    ∧ (allCards (steps (init_state deck) acts)).Nodup
    ∧ Multiset.card (allCards (steps (init_state deck) acts)) = 52 := by
  have h := (inv_steps (inv_init deck hdeck) acts).cards
  refine ⟨h, ?_, ?_⟩
  · rw [h, Multiset.coe_nodup]
    exact create_full_deck_nodup
  · rw [h, Multiset.coe_card]
    rfl

/-- Witness for claim C1: conservation after one stock click on the
unshuffled deck. -/
theorem card_conservation_witness :
    allCards (steps (init_state create_full_deck) [Action.clickStock])
      = (create_full_deck : Multiset Card)
    ∧ (allCards (steps (init_state create_full_deck) [Action.clickStock])).Nodup
    ∧ Multiset.card (allCards (steps (init_state create_full_deck) [Action.clickStock]))
      = 52 :=
  card_conservation create_full_deck (List.Perm.refl create_full_deck) [Action.clickStock]

/-- Claim C8: in every reachable state with no active drag, each tableau
pile's face-up sequence is empty, a single card, or a strictly descending
alternating-color chain from bottom to top. -/
theorem tableau_run_invariant (deck : List Card) (hdeck : deck.Perm create_full_deck)
    (acts : List Action) (hdrag : (steps (init_state deck) acts).dragging = none)
    (i : Fin 7) :
    List.Chain' descLink (((steps (init_state deck) acts).tableau i).up) :=
  chain_of_validRun _ ((inv_steps (inv_init deck hdeck) acts).runs i)

/-- Witness for claim C8: the fresh game's first tableau pile. -/
theorem tableau_run_invariant_witness :
    List.Chain' descLink (((steps (init_state create_full_deck) []).tableau 0).up) :=
  tableau_run_invariant create_full_deck (List.Perm.refl create_full_deck) [] rfl 0

/-- Claim C5: from any reachable state in which the game is not yet over,
one further engine action leaves the game-over flag true exactly when the
four foundations together hold 52 cards; in particular only a stock click
or a successful drop (which run the win check) can set it. -/
theorem win_condition_exact (deck : List Card) (hdeck : deck.Perm create_full_deck)
    (acts : List Action) (hgo : (steps (init_state deck) acts).game_over = false)
    (a : Action) :
    ((step (steps (init_state deck) acts) a).game_over = true
      ↔ (∑ i : Fin 4,
          ((step (steps (init_state deck) acts) a).foundations i).length) = 52) := by
  have hInv := inv_steps (inv_init deck hdeck) acts
  constructor
  · intro htrue
    rcases step_go_cases hInv hgo a with hfalse | h52
    · rw [htrue] at hfalse
      exact absurd hfalse (by simp)
    · exact h52
  · intro h52
    exact (inv_step hInv a).win_flag h52

/-- Witness for claim C5: a stock click on the fresh game. -/
theorem win_condition_exact_witness :
    ((step (steps (init_state create_full_deck) []) Action.clickStock).game_over = true
      ↔ (∑ i : Fin 4, ((step (steps (init_state create_full_deck) [])
          Action.clickStock).foundations i).length) = 52) :=
  win_condition_exact create_full_deck (List.Perm.refl create_full_deck) [] rfl
    Action.clickStock

end Solitaire
